import Mathlib

/-!
Verification of the template-rendering and resource-assembly pipeline in
`pkg/controller/core.oam.dev/v1alpha2/application/builder/build.go`.

The Go file defines:
  * a `builder` with two assembly strategies, `Complete` (stateless, one
    fresh loader per workload/trait evaluation) and `CompleteWithContext`
    (one shared `process.Context` per workload), plus the public entry
    point `Build` which delegates to `CompleteWithContext`;
  * `generateOAM`, extracting a `Component` and an
    `ApplicationConfigurationComponent` from a process context;
  * a `loader` implementing `parser.Render` (`newLoader`, `WithTemplate`,
    `WithContext`, `WithParams`, `Complete`) over CUE files with a sticky
    first-error latch, and the helper `marshal`.

External collaborators (the CUE parser/build/validate engine, JSON
serialization, `process.Context` and the workload/trait `Eval` /
`EvalContext` methods of the parser package) are not part of this
repository snapshot's `src/`; they are modelled either as explicit
function parameters (the CUE engine, JSON marshalling) or, where a claim
depends on their behaviour, by definitions whose doc comments start with
`Modelled from the spec:`.

Rendered runtime objects are opaque to this file, so they are a type
parameter `O`; CUE ASTs are a type parameter `F`; built CUE instances a
type parameter `I`; errors of the external engine are plain strings.
-/

/-- Association-list insertion with in-place replacement; this models Go's
`m[k] = v` on a `map[string]T` (the builder and loader only ever use the
fixed keys `application.oam.dev`, `context`, `-`, `parameter`). -/
def insertKV {α : Type} : List (String × α) → String → α → List (String × α)
  | [], k, v => [(k, v)]
  | (k', v') :: rest, k, v =>
    if k' = k then (k, v) :: rest else (k', v') :: insertKV rest k v

/-- Association-list lookup; models Go's `m[k]` read on a `map[string]T`. -/
def lookupKV {α : Type} : List (String × α) → String → Option α
  | [], _ => none
  | (k', v') :: rest, k => if k' = k then some v' else lookupKV rest k

/-- Whether an `Except` value is an error (Go's `err != nil`). -/
def isErr {ε α : Type} : Except ε α → Bool
  | .error _ => true
  | .ok _ => false

/-- The `OamApplicationLabel` constant: `application.oam.dev`. -/
def OamApplicationLabel : String := "application.oam.dev"

/-- Marker for `v1alpha2.ComponentGroupVersionKind`, set by
`SetGroupVersionKind` on each component. -/
def ComponentGVK : String := "core.oam.dev/v1alpha2, Kind=Component"

/-- Marker for `v1alpha2.ApplicationConfigurationGroupVersionKind`. -/
def ApplicationConfigurationGVK : String :=
  "core.oam.dev/v1alpha2, Kind=ApplicationConfiguration"

/-- Embedding of `v1alpha2.Component`: the metadata fields the builder
writes (name, namespace, labels, group-version-kind) plus
`Spec.Workload.Object`, the extracted runtime object. -/
structure Component (O : Type) where
  name : String := ""
  nspace : String := ""
  labels : List (String × String) := []
  gvk : String := ""
  workloadObject : Option O := none
deriving DecidableEq, Repr

/-- Embedding of `v1alpha2.ComponentTrait`: a trait reference wrapping one
extracted runtime object (`runtime.RawExtension{Object: traitRef}`). -/
structure ComponentTrait (O : Type) where
  trait : O
deriving DecidableEq, Repr

/-- Embedding of `v1alpha2.ApplicationConfigurationComponent`: the binding
record for one workload. -/
structure ACComponent (O : Type) where
  componentName : String := ""
  traits : List (ComponentTrait O) := []
deriving DecidableEq, Repr

/-- Embedding of `v1alpha2.ApplicationConfiguration`: the aggregate
binding graph. -/
structure ApplicationConfiguration (O : Type) where
  name : String := ""
  nspace : String := ""
  labels : List (String × String) := []
  gvk : String := ""
  components : List (ACComponent O) := []
deriving DecidableEq, Repr

/-- Decidable equality for `Except`, needed so the concrete witness
computations below can be checked by `decide`. -/
instance {ε α : Type} [DecidableEq ε] [DecidableEq α] : DecidableEq (Except ε α) :=
  fun x y =>
    match x, y with
    | .error a, .error b =>
      if h : a = b then .isTrue (by rw [h]) else .isFalse (by intro hc; cases hc; exact h rfl)
    | .ok a, .ok b =>
      if h : a = b then .isTrue (by rw [h]) else .isFalse (by intro hc; cases hc; exact h rfl)
    | .error _, .ok _ => .isFalse (by intro hc; cases hc)
    | .ok _, .error _ => .isFalse (by intro hc; cases hc)

/-- A rendered object held by a process context. Its `objectResult` models
the external `.Object(nil)` conversion used by `generateOAM`, which either
yields the runtime object or fails (the spec's extraction error). -/
structure RenderedObject (O : Type) where
  objectResult : Except String O
deriving DecidableEq, Repr

/-- Modelled from the spec: `process.Context` (package `pkg/dsl/process`,
not under `src/`) is "an accumulator that a workload's and its traits'
evaluations write into; exposes, after all writes, a primary (base)
rendered object and an ordered list of auxiliary (assist) rendered
objects". -/
structure ProcessCtx (O : Type) where
  name : String
  base : Option (RenderedObject O) := none
  assists : List (RenderedObject O) := []
deriving DecidableEq, Repr

/-- Modelled from the spec: `process.NewContext(name)` creates a fresh
empty accumulator scoped to the workload's name. -/
def processNewContext (O : Type) (name : String) : ProcessCtx O :=
  { name := name }

/-- A trait of the application descriptor. Its template body and the CUE
evaluation are external (package `parser`, not under `src/`), so the trait
is modelled by the outcome of evaluating its template: an error, or the
ordered list of auxiliary rendered objects it contributes. -/
structure Trait (O : Type) where
  evalResult : Except String (List (RenderedObject O))
deriving DecidableEq, Repr

/-- A workload (service) of the application descriptor, with its name, the
outcome of evaluating its own template (the primary rendered object or an
error), and its ordered trait list. -/
structure Workload (O : Type) where
  name : String
  evalResult : Except String (RenderedObject O)
  traits : List (Trait O)
deriving DecidableEq, Repr

/-- Embedding of `parser.Appfile`: application name plus the ordered
workload list returned by `Services()`. -/
structure Appfile (O : Type) where
  name : String
  services : List (Workload O)
deriving DecidableEq, Repr

/-- Modelled from the spec: `wl.EvalContext(pCtx)` evaluates the
workload's template and, on success, writes exactly one primary rendered
object into the shared context ("produces exactly one primary rendered
object per evaluation"); on failure it returns the error and the builder
aborts. -/
def Workload.EvalContext {O : Type} (wl : Workload O) (ctx : ProcessCtx O) :
    Except String (ProcessCtx O) :=
  match wl.evalResult with
  | .error e => .error e
  | .ok b => .ok { ctx with base := some b }

/-- Modelled from the spec: `tr.EvalContext(pCtx)` evaluates the trait's
template against the same shared context and, on success, appends its
rendered auxiliary objects to the context's assist list in order; on
failure it returns the error and the builder aborts. -/
def Trait.EvalContext {O : Type} (t : Trait O) (ctx : ProcessCtx O) :
    Except String (ProcessCtx O) :=
  match t.evalResult with
  | .error e => .error e
  | .ok objs => .ok { ctx with assists := ctx.assists ++ objs }

/-- The builder's trait loop in `CompleteWithContext`: `for _, tr := range
wl.Traits() { if err := tr.EvalContext(pCtx); err != nil { return ... } }`. -/
def evalTraits {O : Type} : List (Trait O) → ProcessCtx O →
    Except String (ProcessCtx O)
  | [], ctx => .ok ctx
  | t :: rest, ctx =>
    match t.EvalContext ctx with
    | .error e => .error e
    | .ok ctx' => evalTraits rest ctx'

/-- The assist-extraction loop of `generateOAM`: converts each assist via
`assist.Object(nil)` in order, aborting on the first error, and wraps each
result as a `ComponentTrait`. -/
def extractAll {O : Type} : List (RenderedObject O) →
    Except String (List (ComponentTrait O))
  | [] => .ok []
  | o :: rest =>
    match o.objectResult with
    | .error e => .error e
    | .ok x =>
      match extractAll rest with
      | .error e => .error e
      | .ok ts => .ok (⟨x⟩ :: ts)

/-- Embedding of `generateOAM(pCtx)`: reads `(base, assists)` from the
context's `Output()`, converts the base via `base.Object(nil)` into the
component's workload object, and converts each assist in order into the
binding record's trait list. A context with no base corresponds to a Go
nil-pointer `base` (never reached by the builder, which only calls
`generateOAM` after a successful workload evaluation); it is modelled as
an error. -/
def generateOAM {O : Type} (pCtx : ProcessCtx O) :
    Except String (Component O × ACComponent O) :=
  match pCtx.base with
  | none => .error "nil base object"
  | some base =>
    match base.objectResult with
    | .error e => .error e
    | .ok obj =>
      match extractAll pCtx.assists with
      | .error e => .error e
      | .ok ts =>
        .ok ({ workloadObject := some obj }, { traits := ts })

/-- Embedding of the Go `builder` struct (holds the parsed appfile). -/
structure Builder (O : Type) where
  app : Appfile O

/-- The per-workload body and loop of `CompleteWithContext` (lines
95-121): fresh context, workload evaluation, trait evaluations,
`generateOAM`, stamping (name, matching `ComponentName`, namespace,
application label, group-version-kind), and accumulation of both lists in
workload order; any error aborts the whole loop. -/
def cwcLoop {O : Type} (ns appName : String) : List (Workload O) →
    Except String (List (Component O) × List (ACComponent O))
  | [] => .ok ([], [])
  | wl :: rest =>
    let pCtx := processNewContext O wl.name
    match wl.EvalContext pCtx with
    | .error e => .error e
    | .ok ctx1 =>
      match evalTraits wl.traits ctx1 with
      | .error e => .error e
      | .ok ctx2 =>
        match generateOAM ctx2 with
        | .error e => .error e
        | .ok (comp, acComp) =>
          let comp1 := { comp with name := wl.name }
          let acComp1 := { acComp with componentName := comp1.name }
          let comp2 := { comp1 with nspace := ns }
          let comp3 :=
            { comp2 with labels := insertKV comp2.labels OamApplicationLabel appName }
          let comp4 := { comp3 with gvk := ComponentGVK }
          match cwcLoop ns appName rest with
          | .error e => .error e
          | .ok (cs, acs) => .ok (comp4 :: cs, acComp1 :: acs)

/-- The result triple of the builder entry points, mirroring the Go
signature `(*v1alpha2.ApplicationConfiguration, []*v1alpha2.Component,
error)`: on failure the code returns `nil, nil, err`, on success both
graphs and a nil error. -/
abbrev BuildResult (O : Type) :=
  Option (ApplicationConfiguration O) × Option (List (Component O)) × Option String

/-- Embedding of `(*builder).CompleteWithContext(ns)`: initializes the
application configuration (GVK, name, namespace, application label, empty
component list), runs the per-workload loop, and returns either
`(nil, nil, err)` or the two completed graphs. -/
def Builder.CompleteWithContext {O : Type} (b : Builder O) (ns : String) :
    BuildResult O :=
  let appconfig : ApplicationConfiguration O :=
    { gvk := ApplicationConfigurationGVK
      name := b.app.name
      nspace := ns
      labels := insertKV [] OamApplicationLabel b.app.name
      components := [] }
  match cwcLoop ns b.app.name b.app.services with
  | .error e => (none, none, some e)
  | .ok (comps, acs) =>
    (some { appconfig with components := acs }, some comps, none)

/-- Embedding of the public entry point `Build(ns, app)`: constructs the
builder and delegates to `CompleteWithContext`. -/
def Build {O : Type} (ns : String) (app : Appfile O) : BuildResult O :=
  (Builder.mk app).CompleteWithContext ns

/-- Modelled from the spec: the stateless `wl.Eval(render)` (package
`parser`, not under `src/`) evaluates the workload's template with a fresh
loader and returns a `*Component` wrapping the workload's single primary
rendered object, converted to a runtime object; both strategies share the
same external contract, so it is modelled from the same per-workload
evaluation outcome as `EvalContext`. -/
def Workload.Eval {O : Type} (wl : Workload O) : Except String (Component O) :=
  match wl.evalResult with
  | .error e => .error e
  | .ok b =>
    match b.objectResult with
    | .error e => .error e
    | .ok obj => .ok { workloadObject := some obj }

/-- Modelled from the spec: the stateless `trait.Eval(render)` returns the
trait's rendered auxiliary objects, converted in order into
`[]v1alpha2.ComponentTrait`. -/
def Trait.Eval {O : Type} (t : Trait O) : Except String (List (ComponentTrait O)) :=
  match t.evalResult with
  | .error e => .error e
  | .ok objs => extractAll objs

/-- The trait loop of the stateless `Complete` (lines 70-76):
`comp.Traits = append(comp.Traits, ctraits...)` per trait, aborting on the
first error. -/
def statelessTraits {O : Type} : List (Trait O) →
    Except String (List (ComponentTrait O))
  | [] => .ok []
  | t :: rest =>
    match t.Eval with
    | .error e => .error e
    | .ok ts =>
      match statelessTraits rest with
      | .error e => .error e
      | .ok ts' => .ok (ts ++ ts')

/-- The per-workload body and loop of the stateless `Complete` (lines
48-78): evaluate the workload with a fresh loader, stamp namespace, name,
application label and GVK, then evaluate each trait with a fresh loader
and collect its trait list into the binding record. -/
def statelessLoop {O : Type} (ns appName : String) : List (Workload O) →
    Except String (List (Component O) × List (ACComponent O))
  | [] => .ok ([], [])
  | wl :: rest =>
    match wl.Eval with
    | .error e => .error e
    | .ok component =>
      let c1 := { component with nspace := ns }
      let c2 := { c1 with name := wl.name }
      let c3 := { c2 with labels := insertKV c2.labels OamApplicationLabel appName }
      let c4 := { c3 with gvk := ComponentGVK }
      match statelessTraits wl.traits with
      | .error e => .error e
      | .ok ts =>
        let comp : ACComponent O := { componentName := wl.name, traits := ts }
        match statelessLoop ns appName rest with
        | .error e => .error e
        | .ok (cs, acs) => .ok (c4 :: cs, comp :: acs)

/-- Embedding of the stateless `(*builder).Complete(ns)` (lines 35-80):
same application-configuration initialization as `CompleteWithContext`,
but each workload and trait is evaluated independently with a fresh
loader. -/
def Builder.Complete {O : Type} (b : Builder O) (ns : String) : BuildResult O :=
  let appconfig : ApplicationConfiguration O :=
    { gvk := ApplicationConfigurationGVK
      name := b.app.name
      nspace := ns
      labels := insertKV [] OamApplicationLabel b.app.name
      components := [] }
  match statelessLoop ns b.app.name b.app.services with
  | .error e => (none, none, some e)
  | .ok (comps, acs) =>
    (some { appconfig with components := acs }, some comps, none)

/-!
The loader. CUE ASTs (`*ast.File`) are a type parameter `F`, built
instances (`*cue.Instance`) a type parameter `I`. The external engine
functions are passed as parameters:
  * `parse : String → String → F × Option String` models
    `cueparser.ParseFile(filename, src)`, which returns a file (possibly a
    nil/partial one) together with an optional error — the Go code stores
    the returned file in `l.files` even when the parse failed;
  * `jsonM : α → Option String` models `json.Marshal`, `none` meaning a
    serialization error (in which case the returned bytes are empty);
  * `addSyn : F → Option String` models `bi.AddSyntax(f)` failing or not
    for a given file;
  * `buildI : List F → I` models `cue.Build` on the one build instance
    holding the added files;
  * `validate : I → Option String` models
    `inst.Value().Validate(cue.Concrete(true))`, the concreteness check:
    `none` exactly when every value of the instance is concrete.
-/

/-- The errors `loader` constructs, one constructor per construction site:
`errors.Errorf("loader parse %s error", key)` (with `key` the literal
`template` in `WithTemplate`), `errors.WithMessagef(err, "loader AddSyntax
%s", fname)`, and `errors.WithMessagef(err, "loader cue-instance
validate")`. -/
inductive LoadErr where
  | parse (key : String)
  | addSyn (fname : String) (msg : String)
  | validate (msg : String)
deriving DecidableEq, Repr

/-- The error message carried by a `LoadErr`, mirroring the Go format
strings. -/
def LoadErr.render : LoadErr → String
  | .parse key => "loader parse " ++ key ++ " error"
  | .addSyn fname msg => "loader AddSyntax " ++ fname ++ ": " ++ msg
  | .validate msg => "loader cue-instance validate: " ++ msg

/-- The fragment name a loader error identifies, if any: parse errors name
the offending key, AddSyntax errors name the offending file, validation
errors name no fragment. -/
def LoadErr.fragment : LoadErr → Option String
  | .parse key => some key
  | .addSyn fname _ => some fname
  | .validate _ => none

/-- Embedding of `marshal(key, v)`: serializes `v` (discarding any
serialization error, in which case the bytes are empty) and emits
`"<key>: <body>"`. -/
def marshal {α : Type} (jsonM : α → Option String) (key : String) (v : α) : String :=
  key ++ ": " ++ ((jsonM v).getD "")

/-- Embedding of the `loader` struct: the file map (an association list
over the fixed keys `context`, `-`, `parameter`) and the sticky error
latch. -/
structure Loader (F : Type) where
  files : List (String × F) := []
  err : Option LoadErr := none
deriving DecidableEq, Repr

/-- Embedding of `newLoader(ctx)`: seeds the file map with the parsed
`context` fragment (stored even if parsing failed) and latches a parse
error if parsing the serialized context failed. -/
def newLoader {F α : Type} (parse : String → String → F × Option String)
    (jsonM : α → Option String) (ctx : α) : Loader F :=
  let p := parse "context" (marshal jsonM "context" ctx)
  { files := insertKV [] "context" p.1
    err := p.2.map fun _ => LoadErr.parse "context" }

/-- Embedding of `(*loader).WithTemplate(raw)`: a no-op once an error is
latched; otherwise parses the raw template under filename `-`, stores the
file, and latches `loader parse template error` on failure. -/
def Loader.WithTemplate {F : Type} (parse : String → String → F × Option String)
    (raw : String) (l : Loader F) : Loader F :=
  if l.err.isSome then l
  else
    let p := parse "-" raw
    { files := insertKV l.files "-" p.1
      err := p.2.map fun _ => LoadErr.parse "template" }

/-- Embedding of `(*loader).WithContext(ctx)`: a no-op once an error is
latched; otherwise serializes and parses the context under key `context`,
stores the file, and latches a parse error on failure. -/
def Loader.WithContext {F α : Type} (parse : String → String → F × Option String)
    (jsonM : α → Option String) (ctx : α) (l : Loader F) : Loader F :=
  if l.err.isSome then l
  else
    let p := parse "context" (marshal jsonM "context" ctx)
    { files := insertKV l.files "context" p.1
      err := p.2.map fun _ => LoadErr.parse "context" }

/-- Embedding of `(*loader).WithParams(params)`: a no-op once an error is
latched; otherwise serializes and parses the parameters under key
`parameter`, stores the file, and latches a parse error on failure. -/
def Loader.WithParams {F α : Type} (parse : String → String → F × Option String)
    (jsonM : α → Option String) (params : α) (l : Loader F) : Loader F :=
  if l.err.isSome then l
  else
    let p := parse "parameter" (marshal jsonM "parameter" params)
    { files := insertKV l.files "parameter" p.1
      err := p.2.map fun _ => LoadErr.parse "parameter" }

/-- The first file of the iteration sequence whose `AddSyntax` fails,
together with its key, mirroring the `for fname, f := range l.files` loop
that returns on the first failing `bi.AddSyntax(f)`. -/
def firstAddErr {F : Type} (addSyn : F → Option String) :
    List (String × F) → Option (String × String)
  | [] => none
  | (k, f) :: rest =>
    match addSyn f with
    | some m => some (k, m)
    | none => firstAddErr addSyn rest

/-- Embedding of `(*loader).Complete()`. Go iterates `l.files` with
`range`, whose order over a map is nondeterministic: the iteration
sequence is therefore an explicit argument `ord` (theorems relate it to
`l.files` by permutation). If an error is latched it is returned
immediately; otherwise each file is added to a fresh build instance
(first failure aborts, naming the file), the instance is built and
validated for concreteness, and the instance is returned. -/
def Loader.Complete {F I : Type} (addSyn : F → Option String)
    (buildI : List F → I) (validate : I → Option String)
    (ord : List (String × F)) (l : Loader F) : Except LoadErr I :=
  match l.err with
  | some e => .error e
  | none =>
    match firstAddErr addSyn ord with
    | some (fname, msg) => .error (.addSyn fname msg)
    | none =>
      let inst := buildI (ord.map Prod.snd)
      match validate inst with
      | some msg => .error (.validate msg)
      | none => .ok inst

/-!
Derived definitions used to state the claims about the builder.
-/

/-- The auxiliary rendered objects a trait contributes on success (empty
if its evaluation fails). -/
def traitObjs {O : Type} (t : Trait O) : List (RenderedObject O) :=
  match t.evalResult with
  | .error _ => []
  | .ok objs => objs

/-- The trait entry extracted from one rendered object, if extraction
succeeds. -/
def extractOpt {O : Type} (o : RenderedObject O) : Option (ComponentTrait O) :=
  match o.objectResult with
  | .error _ => none
  | .ok x => some ⟨x⟩

/-- Whether any step of one workload's compile would fail: its own
template evaluation, one of its traits' evaluations, the extraction of its
primary object, or the extraction of one of its auxiliary objects. -/
def workloadStepFails {O : Type} (wl : Workload O) : Bool :=
  isErr wl.evalResult ||
  wl.traits.any (fun t => isErr t.evalResult) ||
  (match wl.evalResult with
   | .ok b => isErr b.objectResult
   | .error _ => false) ||
  (wl.traits.map traitObjs).flatten.any fun o => (extractOpt o).isNone

/-- The component a fully successful compile produces for one workload:
the extracted primary object stamped with the workload name, the
namespace, the application label and the component GVK. -/
def renderComponent {O : Type} (ns appName : String) (wl : Workload O) :
    Component O :=
  { name := wl.name
    nspace := ns
    labels := insertKV [] OamApplicationLabel appName
    gvk := ComponentGVK
    workloadObject :=
      (wl.evalResult.toOption).bind fun b => b.objectResult.toOption }

/-- The binding record a fully successful compile produces for one
workload: the workload's name and, per trait in declaration order, that
trait's extracted auxiliary entries (a multi-object trait contributing
multiple consecutive entries). -/
def renderAC {O : Type} (wl : Workload O) : ACComponent O :=
  { componentName := wl.name
    traits := (wl.traits.map fun t => (traitObjs t).filterMap extractOpt).flatten }

/-!
Concrete instances, used by the witness and counterexample theorems. The
opaque rendered-object type is instantiated with `Nat`, CUE files with
`String` (the raw fragment text), built instances with `List String` or
`Multiset String`.
-/

/-- A primary rendered object whose extraction succeeds. -/
def objA : RenderedObject Nat := { objectResult := .ok 1 }

/-- A multi-object trait whose two auxiliary objects both extract. -/
def trOk : Trait Nat :=
  { evalResult := .ok [{ objectResult := .ok 2 }, { objectResult := .ok 3 }] }

/-- A workload that renders successfully with one multi-object trait. -/
def wlOk : Workload Nat := { name := "front", evalResult := .ok objA, traits := [trOk] }

/-- A workload whose own template evaluation fails. -/
def wlBad : Workload Nat :=
  { name := "back", evalResult := .error "render failed", traits := [] }

/-- An application whose single workload compiles successfully. -/
def appOk : Appfile Nat := { name := "web", services := [wlOk] }

/-- An application whose first workload succeeds and second fails. -/
def appBad : Appfile Nat := { name := "web", services := [wlOk, wlBad] }

/-- The binding graph a successful compile of `appOk` in namespace `prod`
produces. -/
def acW : ApplicationConfiguration Nat :=
  { name := "web"
    nspace := "prod"
    labels := [(OamApplicationLabel, "web")]
    gvk := ApplicationConfigurationGVK
    components := [renderAC wlOk] }

/-- The component list a successful compile of `appOk` in namespace `prod`
produces. -/
def csW : List (Component Nat) := [renderComponent "prod" "web" wlOk]

/-- A parse function that always fails (returning an empty file alongside
the error, as `cueparser.ParseFile` can). -/
def parseBad : String → String → String × Option String :=
  fun _ _ => ("", some "unexpected token")

/-- A parse function that always succeeds, keeping the raw text as the
file. -/
def parseOk : String → String → String × Option String := fun _ src => (src, none)

/-- A serializer that always fails (models `json.Marshal` returning an
error and nil bytes). -/
def jsonNone : Nat → Option String := fun _ => none

/-- A serializer that always succeeds with a fixed body. -/
def jsonOk : Nat → Option String := fun n => some (toString n)

/-- A loader whose seeding parse failed, so the `context` parse error is
latched. -/
def lBad : Loader String := newLoader parseBad jsonNone 0

/-- An error-free loader holding a parsed `context` fragment. -/
def lOk : Loader String := newLoader parseOk jsonOk 0

/-- An `AddSyntax` model that always succeeds. -/
def addSynOk : String → Option String := fun _ => none

/-- A build model that collects the added files in order. -/
def buildList : List String → List String := fun fs => fs

/-- A build model that collects the added files as a multiset, so it is
invariant under the map-iteration order (the commutative-unification model
of the CUE engine). -/
def buildMultiset : List String → Multiset String := fun fs => (fs : Multiset String)

/-- A concreteness check that always passes. -/
def validOk : List String → Option String := fun _ => none

/-- A concreteness check that always fails with a fixed message (a result
with an unresolved value). -/
def validBad : List String → Option String := fun _ => some "field x is not concrete"

/-- A concreteness check on multisets that always passes. -/
def validMultisetOk : Multiset String → Option String := fun _ => none

/-- An error-free loader holding two parsed fragments (`context` and the
template body), for exercising map-iteration-order permutations. -/
def lTwo : Loader String := (newLoader parseOk jsonOk 0).WithTemplate parseOk "out: context"

/-- One iteration order of `lTwo`'s file map. -/
def ordA : List (String × String) := [("context", "context: 0"), ("-", "out: context")]

/-- The opposite iteration order of `lTwo`'s file map. -/
def ordB : List (String × String) := [("-", "out: context"), ("context", "context: 0")]

/-!
Characterization lemmas about the builder pipeline.
-/

/-- Inserting twice under the same key keeps only the last value. -/
theorem insertKV_insertKV {α : Type} (xs : List (String × α)) (k : String)
    (v1 v2 : α) : insertKV (insertKV xs k v1) k v2 = insertKV xs k v2 := by
  induction xs with
  | nil => simp [insertKV]
  | cons p rest ih =>
    obtain ⟨k', v'⟩ := p
    by_cases h : k' = k
    · simp [insertKV, h]
    · simp [insertKV, h, ih]

/-- Looking up the key just inserted returns the inserted value. -/
theorem lookupKV_insertKV {α : Type} (xs : List (String × α)) (k : String)
    (v : α) : lookupKV (insertKV xs k v) k = some v := by
  induction xs with
  | nil => simp [insertKV, lookupKV]
  | cons p rest ih =>
    obtain ⟨k', v'⟩ := p
    by_cases h : k' = k
    · simp [insertKV, h, lookupKV]
    · simp [insertKV, h, lookupKV, ih]

/-- Pointwise relations lift to `Forall₂` between two maps over one list. -/
theorem forall2_map_map {α β γ : Type} (f : α → β) (g : α → γ)
    (R : β → γ → Prop) (l : List α) (h : ∀ a ∈ l, R (f a) (g a)) :
    List.Forall₂ R (l.map f) (l.map g) := by
  induction l with
  | nil => simp
  | cons a rest ih =>
    simp only [List.map_cons]
    exact List.Forall₂.cons (h a (by simp)) (ih fun a ha => h a (by simp [ha]))

/-- A successful `extractAll` run is the in-order extraction of every
object, and every individual extraction succeeded. -/
theorem extractAll_ok {O : Type} :
    ∀ (os : List (RenderedObject O)) (ts : List (ComponentTrait O)),
      extractAll os = .ok ts →
      ts = os.filterMap extractOpt ∧ ∀ o ∈ os, (extractOpt o).isSome = true := by
  intro os
  induction os with
  | nil =>
    intro ts h
    simp only [extractAll] at h
    cases h
    simp
  | cons o rest ih =>
    intro ts h
    simp only [extractAll] at h
    cases ho : o.objectResult with
    | error e => rw [ho] at h; cases h
    | ok x =>
      rw [ho] at h
      cases he : extractAll rest with
      | error e => rw [he] at h; cases h
      | ok ts' =>
        rw [he] at h
        cases h
        obtain ⟨h1, h2⟩ := ih ts' he
        refine ⟨by simp [List.filterMap_cons, extractOpt, ho, h1], ?_⟩
        intro o' ho'
        rcases List.mem_cons.mp ho' with h' | h'
        · subst h'; simp [extractOpt, ho]
        · exact h2 o' h'

/-- If every extraction succeeds, `extractAll` succeeds with the in-order
extraction. -/
theorem extractAll_of_all_ok {O : Type} :
    ∀ (os : List (RenderedObject O)),
      (∀ o ∈ os, (extractOpt o).isSome = true) →
      extractAll os = .ok (os.filterMap extractOpt) := by
  intro os
  induction os with
  | nil => intro _; simp [extractAll]
  | cons o rest ih =>
    intro h
    have ho := h o (by simp)
    cases hx : o.objectResult with
    | error e => simp [extractOpt, hx] at ho
    | ok x =>
      simp only [extractAll, hx, ih fun o' h' => h o' (by simp [h'])]
      simp [List.filterMap_cons, extractOpt, hx]

/-- A successful trait loop leaves the base untouched, appends every
trait's objects in declaration order, and means every trait evaluation
succeeded. -/
theorem evalTraits_ok {O : Type} :
    ∀ (ts : List (Trait O)) (ctx ctx' : ProcessCtx O),
      evalTraits ts ctx = .ok ctx' →
      ctx'.name = ctx.name ∧ ctx'.base = ctx.base ∧
      ctx'.assists = ctx.assists ++ (ts.map traitObjs).flatten ∧
      ∀ t ∈ ts, isErr t.evalResult = false := by
  intro ts
  induction ts with
  | nil =>
    intro ctx ctx' h
    simp only [evalTraits] at h
    cases h
    simp
  | cons t rest ih =>
    intro ctx ctx' h
    simp only [evalTraits, Trait.EvalContext] at h
    cases ht : t.evalResult with
    | error e => rw [ht] at h; cases h
    | ok objs =>
      rw [ht] at h
      obtain ⟨h1, h2, h3, h4⟩ := ih _ _ h
      refine ⟨by simp [h1], by simp [h2], ?_, ?_⟩
      · simp only [h3]
        simp [traitObjs, ht, List.append_assoc]
      · intro t' ht'
        rcases List.mem_cons.mp ht' with h' | h'
        · subst h'; simp [isErr, ht]
        · exact h4 t' h'

/-- Applying `isErr` to a success yields `false`. -/
theorem isErr_ok {e a : Type} (x : a) : isErr (Except.ok x : Except e a) = false := rfl

/-- Applying `isErr` to an error yields `true`. -/
theorem isErr_error {e a : Type} (x : e) : isErr (Except.error x : Except e a) = true := rfl

/-- A workload none of whose steps fails: its own evaluation and primary
extraction succeed, every trait evaluation succeeds, and every auxiliary
extraction succeeds. -/
theorem workloadStepFails_false {O : Type} (wl : Workload O) (b : RenderedObject O)
    (obj : O) (hb : wl.evalResult = Except.ok b) (hx : b.objectResult = Except.ok obj)
    (halltr : ∀ t ∈ wl.traits, isErr t.evalResult = false)
    (hall : ∀ o ∈ (wl.traits.map traitObjs).flatten, (extractOpt o).isSome = true) :
    workloadStepFails wl = false := by
  have h1 : (wl.traits.any fun t => isErr t.evalResult) = false := by
    rw [List.any_eq_false]
    intro t ht
    simp [halltr t ht]
  have h2 : ((wl.traits.map traitObjs).flatten.any fun o => (extractOpt o).isNone) = false := by
    rw [List.any_eq_false]
    intro o ho
    have h5 := hall o ho
    cases hE : extractOpt o with
    | none => rw [hE] at h5; cases h5
    | some c => simp [hE]
  simp [workloadStepFails, hb, hx, isErr_ok, h1, h2]

/-- A successful `CompleteWithContext` loop produces exactly the rendered
component and binding record of every workload, in workload order, and
means every step of every workload succeeded. -/
theorem cwcLoop_ok {O : Type} :
    ∀ (wls : List (Workload O)) (ns nm : String) (cs : List (Component O))
      (acs : List (ACComponent O)),
      cwcLoop ns nm wls = .ok (cs, acs) →
      cs = wls.map (renderComponent ns nm) ∧ acs = wls.map renderAC ∧
      ∀ wl ∈ wls, workloadStepFails wl = false := by
  intro wls
  induction wls with
  | nil =>
    intro ns nm cs acs h
    simp only [cwcLoop] at h
    cases h
    simp
  | cons wl rest ih =>
    intro ns nm cs acs h
    simp only [cwcLoop, Workload.EvalContext, processNewContext] at h
    cases hb : wl.evalResult with
    | error e => rw [hb] at h; cases h
    | ok b =>
      rw [hb] at h
      dsimp only at h
      cases htr : evalTraits wl.traits { name := wl.name, base := some b } with
      | error e => rw [htr] at h; cases h
      | ok ctx2 =>
        rw [htr] at h
        obtain ⟨hn, hbase, hassists, halltr⟩ := evalTraits_ok _ _ _ htr
        simp only [generateOAM, hbase] at h
        cases hx : b.objectResult with
        | error e => rw [hx] at h; cases h
        | ok obj =>
          rw [hx] at h
          cases he : extractAll ctx2.assists with
          | error e => rw [he] at h; cases h
          | ok ts =>
            rw [he] at h
            cases hrest : cwcLoop ns nm rest with
            | error e => rw [hrest] at h; cases h
            | ok p =>
              obtain ⟨cs', acs'⟩ := p
              rw [hrest] at h
              cases h
              obtain ⟨ih1, ih2, ih3⟩ := ih ns nm cs' acs' hrest
              obtain ⟨hts, hall⟩ := extractAll_ok _ _ he
              have hassists' : ctx2.assists = (wl.traits.map traitObjs).flatten := by
                simpa using hassists
              constructor
              · simp only [List.map_cons, ih1]
                congr 1
                simp [renderComponent, hb, hx, Except.toOption]
              constructor
              · simp only [List.map_cons, ih2]
                congr 1
                simp only [renderAC]
                congr 1
                rw [hts, hassists', List.filterMap_flatten, List.map_map]
                rfl
              · intro w hw
                rcases List.mem_cons.mp hw with h' | h'
                · subst h'
                  refine workloadStepFails_false w b obj hb hx halltr ?_
                  intro o ho
                  exact hall o (by rw [hassists']; exact ho)
                · exact ih3 w h'

/-- A successful run of the stateless trait loop is the in-order
concatenation of every trait's extracted entries, every trait evaluation
and every extraction having succeeded. -/
theorem statelessTraits_ok {O : Type} :
    ∀ (ts : List (Trait O)) (res : List (ComponentTrait O)),
      statelessTraits ts = .ok res →
      res = (ts.map fun t => (traitObjs t).filterMap extractOpt).flatten ∧
      (∀ t ∈ ts, isErr t.evalResult = false) ∧
      ∀ o ∈ (ts.map traitObjs).flatten, (extractOpt o).isSome = true := by
  intro ts
  induction ts with
  | nil =>
    intro res h
    simp only [statelessTraits] at h
    cases h
    simp
  | cons t rest ih =>
    intro res h
    simp only [statelessTraits, Trait.Eval] at h
    cases ht : t.evalResult with
    | error e => rw [ht] at h; cases h
    | ok objs =>
      rw [ht] at h
      dsimp only at h
      cases he : extractAll objs with
      | error e => rw [he] at h; cases h
      | ok ts0 =>
        rw [he] at h
        cases hrest : statelessTraits rest with
        | error e => rw [hrest] at h; cases h
        | ok res' =>
          rw [hrest] at h
          cases h
          obtain ⟨hts0, hallobjs⟩ := extractAll_ok _ _ he
          obtain ⟨ih1, ih2, ih3⟩ := ih res' hrest
          refine ⟨?_, ?_, ?_⟩
          · simp only [List.map_cons, List.flatten_cons, ih1, hts0, traitObjs, ht]
          · intro t' ht'
            rcases List.mem_cons.mp ht' with h' | h'
            · subst h'; simp [isErr, ht]
            · exact ih2 t' h'
          · intro o ho
            simp only [List.map_cons, List.flatten_cons, List.mem_append] at ho
            rcases ho with h' | h'
            · exact hallobjs o (by simpa [traitObjs, ht] using h')
            · exact ih3 o h'

/-- A successful stateless loop produces exactly the rendered component
and binding record of every workload, in workload order, and means every
step of every workload succeeded. -/
theorem statelessLoop_ok {O : Type} :
    ∀ (wls : List (Workload O)) (ns nm : String) (cs : List (Component O))
      (acs : List (ACComponent O)),
      statelessLoop ns nm wls = .ok (cs, acs) →
      cs = wls.map (renderComponent ns nm) ∧ acs = wls.map renderAC ∧
      ∀ wl ∈ wls, workloadStepFails wl = false := by
  intro wls
  induction wls with
  | nil =>
    intro ns nm cs acs h
    simp only [statelessLoop] at h
    cases h
    simp
  | cons wl rest ih =>
    intro ns nm cs acs h
    simp only [statelessLoop, Workload.Eval] at h
    cases hb : wl.evalResult with
    | error e => rw [hb] at h; cases h
    | ok b =>
      rw [hb] at h
      dsimp only at h
      cases hx : b.objectResult with
      | error e => rw [hx] at h; cases h
      | ok obj =>
        rw [hx] at h
        cases htr : statelessTraits wl.traits with
        | error e => rw [htr] at h; cases h
        | ok ts =>
          rw [htr] at h
          cases hrest : statelessLoop ns nm rest with
          | error e => rw [hrest] at h; cases h
          | ok p =>
            obtain ⟨cs', acs'⟩ := p
            rw [hrest] at h
            cases h
            obtain ⟨h1, h2, h3⟩ := statelessTraits_ok _ _ htr
            obtain ⟨ih1, ih2, ih3⟩ := ih ns nm cs' acs' hrest
            constructor
            · simp only [List.map_cons, ih1]
              congr 1
              simp [renderComponent, hb, hx, Except.toOption]
            constructor
            · simp only [List.map_cons, ih2]
              congr 1
              simp [renderAC, h1]
            · intro w hw
              rcases List.mem_cons.mp hw with h' | h'
              · subst h'
                exact workloadStepFails_false w b obj hb hx h2 h3
              · exact ih3 w h'

/-!
Claim theorems about the builder.
-/

/-- C1: All-or-nothing compilation: if any workload's template evaluation,
any trait's template evaluation, or extraction in `generateOAM` fails for
some workload of the application, then `CompleteWithContext` (and hence
`Build`) returns an error together with `nil` for both the component list
and the `ApplicationConfiguration`; no partial graph with entries for
earlier, successful workloads is returned. -/
theorem claim_C1_all_or_nothing {O : Type} (ns : String) (app : Appfile O)
    (h : ∃ wl ∈ app.services, workloadStepFails wl = true) :
    ∃ e, (Builder.mk app).CompleteWithContext ns = (none, none, some e) ∧
      Build ns app = (none, none, some e) := by
  cases hc : cwcLoop ns app.name app.services with
  | error e =>
    refine ⟨e, ?_, ?_⟩ <;> simp [Build, Builder.CompleteWithContext, hc]
  | ok p =>
    obtain ⟨wl, hwl, hf⟩ := h
    obtain ⟨cs, acs⟩ := p
    have := (cwcLoop_ok app.services ns app.name cs acs hc).2.2 wl hwl
    rw [hf] at this
    cases this

/-- Witness for C1: `appBad` has a successful first workload and a failing
second one, and its compile returns an error with both graphs nil. -/
theorem claim_C1_all_or_nothing_witness :
    (∃ wl ∈ appBad.services, workloadStepFails wl = true) ∧
    ∃ e, (Builder.mk appBad).CompleteWithContext "prod" = (none, none, some e) ∧
      Build "prod" appBad = (none, none, some e) :=
  ⟨⟨wlBad, by decide, by decide⟩,
    claim_C1_all_or_nothing "prod" appBad ⟨wlBad, by decide, by decide⟩⟩

/-- C2 as stated is refuted at `ns = ""`: the compile succeeds and the
produced entry's namespace is the given (empty) namespace, hence not
nonempty. -/
theorem claim_C2_counterexample :
    (Build "" appOk).2.2 = none ∧
    (Build "" appOk).2.1 = some [renderComponent "" "web" wlOk] ∧
    (renderComponent "" "web" wlOk).nspace = "" := by
  refine ⟨by decide, by decide, by decide⟩

/-- C2 (amended): for every successful compile, each component's namespace
equals the given `ns` (hence is nonempty whenever `ns` is nonempty), its
name equals its workload's name, its `application.oam.dev` label equals
the application's name, and the matching binding record's `ComponentName`
equals that component's name. -/
theorem claim_C2_stamping {O : Type} (ns : String) (app : Appfile O)
    (ac : ApplicationConfiguration O) (cs : List (Component O))
    (h : (Builder.mk app).CompleteWithContext ns = (some ac, some cs, none)) :
    List.Forall₂ (fun (c : Component O) (wl : Workload O) =>
        c.nspace = ns ∧ (ns ≠ "" → c.nspace ≠ "") ∧ c.name = wl.name ∧
        lookupKV c.labels OamApplicationLabel = some app.name)
      cs app.services ∧
    List.Forall₂ (fun (r : ACComponent O) (c : Component O) =>
        r.componentName = c.name)
      ac.components cs := by
  simp only [Builder.CompleteWithContext] at h
  cases hc : cwcLoop ns app.name app.services with
  | error e => rw [hc] at h; cases h
  | ok p =>
    obtain ⟨cs', acs'⟩ := p
    rw [hc] at h
    cases h
    obtain ⟨h1, h2, _⟩ := cwcLoop_ok _ _ _ _ _ hc
    subst h1
    subst h2
    constructor
    · have := forall2_map_map (renderComponent ns app.name) id
        (fun (c : Component O) (wl : Workload O) =>
          c.nspace = ns ∧ (ns ≠ "" → c.nspace ≠ "") ∧ c.name = wl.name ∧
          lookupKV c.labels OamApplicationLabel = some app.name)
        app.services
        (fun wl _ => ⟨rfl, fun hne => hne, rfl, lookupKV_insertKV [] _ _⟩)
      simpa using this
    · exact forall2_map_map renderAC (renderComponent ns app.name)
        (fun (r : ACComponent O) (c : Component O) => r.componentName = c.name)
        app.services (fun wl _ => rfl)

/-- Witness for C2 (amended): the successful compile of `appOk` in
namespace `prod`. -/
theorem claim_C2_stamping_witness :
    ((Builder.mk appOk).CompleteWithContext "prod" = (some acW, some csW, none)) ∧
    (List.Forall₂ (fun (c : Component Nat) (wl : Workload Nat) =>
        c.nspace = "prod" ∧ ("prod" ≠ "" → c.nspace ≠ "") ∧ c.name = wl.name ∧
        lookupKV c.labels OamApplicationLabel = some appOk.name)
      csW appOk.services ∧
    List.Forall₂ (fun (r : ACComponent Nat) (c : Component Nat) =>
        r.componentName = c.name)
      acW.components csW) :=
  ⟨by decide, claim_C2_stamping "prod" appOk acW csW (by decide)⟩

/-- C3: Order preservation: on a successful compile the component list and
the binding records follow the workload order of the template source, and
each binding record's auxiliary entries are the in-order concatenation of
its traits' extracted outputs (a multi-object trait contributing multiple
consecutive entries). -/
theorem claim_C3_order {O : Type} (ns : String) (app : Appfile O)
    (ac : ApplicationConfiguration O) (cs : List (Component O))
    (h : Build ns app = (some ac, some cs, none)) :
    cs.map Component.name = app.services.map Workload.name ∧
    ac.components.map ACComponent.componentName = app.services.map Workload.name ∧
    List.Forall₂ (fun (r : ACComponent O) (wl : Workload O) =>
        r.traits = (wl.traits.map fun t => (traitObjs t).filterMap extractOpt).flatten)
      ac.components app.services := by
  simp only [Build, Builder.CompleteWithContext] at h
  cases hc : cwcLoop ns app.name app.services with
  | error e => rw [hc] at h; cases h
  | ok p =>
    obtain ⟨cs', acs'⟩ := p
    rw [hc] at h
    cases h
    obtain ⟨h1, h2, _⟩ := cwcLoop_ok _ _ _ _ _ hc
    subst h1
    subst h2
    refine ⟨?_, ?_, ?_⟩
    · rw [List.map_map]
      exact List.map_congr_left fun wl _ => rfl
    · rw [List.map_map]
      exact List.map_congr_left fun wl _ => rfl
    · have := forall2_map_map renderAC id
        (fun (r : ACComponent O) (wl : Workload O) =>
          r.traits = (wl.traits.map fun t => (traitObjs t).filterMap extractOpt).flatten)
        app.services (fun wl _ => rfl)
      simpa using this

/-- Witness for C3: the successful compile of `appOk` (one workload with a
two-object trait) in namespace `prod`. -/
theorem claim_C3_order_witness :
    (Build "prod" appOk = (some acW, some csW, none)) ∧
    (csW.map Component.name = appOk.services.map Workload.name ∧
    acW.components.map ACComponent.componentName = appOk.services.map Workload.name ∧
    List.Forall₂ (fun (r : ACComponent Nat) (wl : Workload Nat) =>
        r.traits = (wl.traits.map fun t => (traitObjs t).filterMap extractOpt).flatten)
      acW.components appOk.services) :=
  ⟨by decide, claim_C3_order "prod" appOk acW csW (by decide)⟩

/-- C9: Strategy equivalence: whenever the stateless `Complete` and the
context-accumulating `CompleteWithContext` both succeed on the same
application and namespace, they return the same application configuration
and the same ordered component list. -/
theorem claim_C9_strategy_equiv {O : Type} (ns : String) (app : Appfile O)
    (ac1 ac2 : ApplicationConfiguration O) (cs1 cs2 : List (Component O))
    (h1 : (Builder.mk app).Complete ns = (some ac1, some cs1, none))
    (h2 : (Builder.mk app).CompleteWithContext ns = (some ac2, some cs2, none)) :
    ac1 = ac2 ∧ cs1 = cs2 := by
  simp only [Builder.Complete] at h1
  simp only [Builder.CompleteWithContext] at h2
  cases hs : statelessLoop ns app.name app.services with
  | error e => rw [hs] at h1; cases h1
  | ok p =>
    obtain ⟨csA, acsA⟩ := p
    rw [hs] at h1
    cases hc : cwcLoop ns app.name app.services with
    | error e => rw [hc] at h2; cases h2
    | ok q =>
      obtain ⟨csB, acsB⟩ := q
      rw [hc] at h2
      cases h1
      cases h2
      obtain ⟨ha1, ha2, _⟩ := statelessLoop_ok _ _ _ _ _ hs
      obtain ⟨hb1, hb2, _⟩ := cwcLoop_ok _ _ _ _ _ hc
      subst ha1; subst ha2; subst hb1; subst hb2
      exact ⟨rfl, rfl⟩

/-- Witness for C9: both strategies succeed on `appOk` in namespace `prod`
and agree. -/
theorem claim_C9_strategy_equiv_witness :
    ((Builder.mk appOk).Complete "prod" = (some acW, some csW, none)) ∧
    ((Builder.mk appOk).CompleteWithContext "prod" = (some acW, some csW, none)) ∧
    (acW = acW ∧ csW = csW) :=
  ⟨by decide, by decide,
    claim_C9_strategy_equiv "prod" appOk acW acW csW csW (by decide) (by decide)⟩

/-!
Lemmas and claim theorems about the loader.
-/

/-- If every file's `AddSyntax` succeeds, the iteration finds no failure. -/
theorem firstAddErr_none {F : Type} (addSyn : F → Option String) :
    ∀ (ord : List (String × F)), (∀ p ∈ ord, addSyn p.2 = none) →
      firstAddErr addSyn ord = none := by
  intro ord
  induction ord with
  | nil => intro _; rfl
  | cons p rest ih =>
    intro h
    obtain ⟨k, f⟩ := p
    have hp := h (k, f) (by simp)
    simp only [firstAddErr, hp]
    exact ih fun q hq => h q (by simp [hq])

/-- A found `AddSyntax` failure belongs to a file actually present in the
iteration sequence, under its reported name. -/
theorem firstAddErr_some {F : Type} (addSyn : F → Option String) :
    ∀ (ord : List (String × F)) (k m : String),
      firstAddErr addSyn ord = some (k, m) →
      ∃ f, (k, f) ∈ ord ∧ addSyn f = some m := by
  intro ord
  induction ord with
  | nil => intro k m h; cases h
  | cons p rest ih =>
    intro k m h
    obtain ⟨k', f'⟩ := p
    simp only [firstAddErr] at h
    cases hp : addSyn f' with
    | some m' =>
      rw [hp] at h
      cases h
      exact ⟨f', by simp, hp⟩
    | none =>
      rw [hp] at h
      obtain ⟨f, hmem, hadd⟩ := ih k m h
      exact ⟨f, by simp [hmem], hadd⟩

/-- On a successful `Complete` run no error was latched, every `AddSyntax`
step succeeded, the built instance validated as concrete, and the result
is exactly the instance built from the iterated files. -/
theorem loaderComplete_ok {F I : Type} (addSyn : F → Option String)
    (buildI : List F → I) (validate : I → Option String)
    (ord : List (String × F)) (l : Loader F) (i : I)
    (hc : l.Complete addSyn buildI validate ord = .ok i) :
    l.err = none ∧ firstAddErr addSyn ord = none ∧
    validate (buildI (ord.map Prod.snd)) = none ∧
    i = buildI (ord.map Prod.snd) := by
  simp only [Loader.Complete] at hc
  cases he : l.err with
  | some e0 => rw [he] at hc; cases hc
  | none =>
    rw [he] at hc
    cases hf : firstAddErr addSyn ord with
    | some pr => obtain ⟨k, m⟩ := pr; rw [hf] at hc; cases hc
    | none =>
      rw [hf] at hc
      cases hv : validate (buildI (ord.map Prod.snd)) with
      | some m => rw [hv] at hc; cases hc
      | none =>
        rw [hv] at hc
        cases hc
        exact ⟨rfl, rfl, rfl, rfl⟩

/-- C4: Sticky first-error: once an error is latched, `WithTemplate`,
`WithContext` and `WithParams` are no-ops that leave the loader (and hence
the latched error) unchanged and attempt no further parse, and `Complete`
returns exactly the latched error immediately. -/
theorem claim_C4_sticky_error {F I α : Type} (parse : String → String → F × Option String)
    (jsonM : α → Option String) (raw : String) (c p : α)
    (addSyn : F → Option String) (buildI : List F → I) (validate : I → Option String)
    (ord : List (String × F)) (l : Loader F) (e : LoadErr) (h : l.err = some e) :
    l.WithTemplate parse raw = l ∧
    l.WithContext parse jsonM c = l ∧
    l.WithParams parse jsonM p = l ∧
    l.Complete addSyn buildI validate ord = .error e := by
  refine ⟨?_, ?_, ?_, ?_⟩ <;>
    simp [Loader.WithTemplate, Loader.WithContext, Loader.WithParams, Loader.Complete, h]

/-- Witness for C4: the loader whose seeding parse failed has the
`context` parse error latched, and all later calls are no-ops. -/
theorem claim_C4_sticky_error_witness :
    (lBad.err = some (.parse "context")) ∧
    (lBad.WithTemplate parseOk "a: 1" = lBad ∧
    lBad.WithContext parseOk jsonOk 1 = lBad ∧
    lBad.WithParams parseOk jsonOk 2 = lBad ∧
    lBad.Complete addSynOk buildList validOk lBad.files = .error (.parse "context")) :=
  ⟨by decide,
    claim_C4_sticky_error parseOk jsonOk "a: 1" 1 2 addSynOk buildList validOk
      lBad.files lBad (.parse "context") (by decide)⟩

/-- C5: Concreteness gate: for an error-free loader whose fragments all
assemble, a non-concrete evaluation result makes `Complete` return the
validation error, and a non-error result is returned only when the
validation (concreteness) check of the built instance passes. -/
theorem claim_C5_concreteness {F I : Type} (addSyn : F → Option String)
    (buildI : List F → I) (validate : I → Option String) (ord : List (String × F))
    (l : Loader F) (h : l.err = none) :
    (∀ m, (∀ p ∈ ord, addSyn p.2 = none) →
      validate (buildI (ord.map Prod.snd)) = some m →
      l.Complete addSyn buildI validate ord = .error (.validate m)) ∧
    (∀ i, l.Complete addSyn buildI validate ord = .ok i →
      validate i = none ∧ i = buildI (ord.map Prod.snd)) := by
  constructor
  · intro m hAdd hval
    simp [Loader.Complete, h, firstAddErr_none addSyn ord hAdd, hval]
  · intro i hi
    obtain ⟨_, _, hv, hi'⟩ := loaderComplete_ok addSyn buildI validate ord l i hi
    subst hi'
    exact ⟨hv, rfl⟩

/-- Witness for C5: an error-free loader whose built instance fails the
concreteness check yields the validation error. -/
theorem claim_C5_concreteness_witness :
    (lOk.err = none) ∧
    ((∀ m, (∀ p ∈ lOk.files, addSynOk p.2 = none) →
      validBad (buildList (lOk.files.map Prod.snd)) = some m →
      lOk.Complete addSynOk buildList validBad lOk.files = .error (.validate m)) ∧
    (∀ i, lOk.Complete addSynOk buildList validBad lOk.files = .ok i →
      validBad i = none ∧ i = buildList (lOk.files.map Prod.snd))) :=
  ⟨by decide, claim_C5_concreteness addSynOk buildList validBad lOk.files lOk (by decide)⟩

/-- C6: Last-write-wins fragment replacement: for an error-free loader,
a second `WithContext` (resp. `WithParams`, `WithTemplate`) call that
follows one that latched no error replaces the stored fragment under the
same key, with no accumulation, giving the same state as the second call
alone; and repeating the very same call is idempotent. -/
theorem claim_C6_last_write_wins {F α : Type}
    (parse : String → String → F × Option String) (jsonM : α → Option String)
    (c1 c2 c p1 p2 q : α) (raw1 raw2 raw : String)
    (l : Loader F) (h : l.err = none) :
    ((l.WithContext parse jsonM c1).err = none →
      (l.WithContext parse jsonM c1).WithContext parse jsonM c2 =
        l.WithContext parse jsonM c2) ∧
    ((l.WithParams parse jsonM p1).err = none →
      (l.WithParams parse jsonM p1).WithParams parse jsonM p2 =
        l.WithParams parse jsonM p2) ∧
    ((l.WithTemplate parse raw1).err = none →
      (l.WithTemplate parse raw1).WithTemplate parse raw2 =
        l.WithTemplate parse raw2) ∧
    ((l.WithContext parse jsonM c).WithContext parse jsonM c =
        l.WithContext parse jsonM c) ∧
    ((l.WithParams parse jsonM q).WithParams parse jsonM q =
        l.WithParams parse jsonM q) ∧
    ((l.WithTemplate parse raw).WithTemplate parse raw =
        l.WithTemplate parse raw) := by
  refine ⟨?_, ?_, ?_, ?_, ?_, ?_⟩
  · intro h1
    cases hp : (parse "context" (marshal jsonM "context" c1)).2 with
    | some m =>
      simp only [Loader.WithContext, h] at h1
      simp [hp] at h1
    | none =>
      simp [Loader.WithContext, h, hp, insertKV_insertKV]
  · intro h1
    cases hp : (parse "parameter" (marshal jsonM "parameter" p1)).2 with
    | some m =>
      simp only [Loader.WithParams, h] at h1
      simp [hp] at h1
    | none =>
      simp [Loader.WithParams, h, hp, insertKV_insertKV]
  · intro h1
    cases hp : (parse "-" raw1).2 with
    | some m =>
      simp only [Loader.WithTemplate, h] at h1
      simp [hp] at h1
    | none =>
      simp [Loader.WithTemplate, h, hp, insertKV_insertKV]
  · cases hp : (parse "context" (marshal jsonM "context" c)).2 with
    | some m => simp [Loader.WithContext, h, hp]
    | none => simp [Loader.WithContext, h, hp, insertKV_insertKV]
  · cases hp : (parse "parameter" (marshal jsonM "parameter" q)).2 with
    | some m => simp [Loader.WithParams, h, hp]
    | none => simp [Loader.WithParams, h, hp, insertKV_insertKV]
  · cases hp : (parse "-" raw).2 with
    | some m => simp [Loader.WithTemplate, h, hp]
    | none => simp [Loader.WithTemplate, h, hp, insertKV_insertKV]

/-- Witness for C6: replacement and idempotence on the error-free loader
`lOk` with concrete fragments. -/
theorem claim_C6_last_write_wins_witness :
    (lOk.err = none) ∧
    (((lOk.WithContext parseOk jsonOk 1).err = none →
      (lOk.WithContext parseOk jsonOk 1).WithContext parseOk jsonOk 2 =
        lOk.WithContext parseOk jsonOk 2) ∧
    ((lOk.WithParams parseOk jsonOk 3).err = none →
      (lOk.WithParams parseOk jsonOk 3).WithParams parseOk jsonOk 4 =
        lOk.WithParams parseOk jsonOk 4) ∧
    ((lOk.WithTemplate parseOk "a: 1").err = none →
      (lOk.WithTemplate parseOk "a: 1").WithTemplate parseOk "a: 2" =
        lOk.WithTemplate parseOk "a: 2") ∧
    ((lOk.WithContext parseOk jsonOk 5).WithContext parseOk jsonOk 5 =
        lOk.WithContext parseOk jsonOk 5) ∧
    ((lOk.WithParams parseOk jsonOk 6).WithParams parseOk jsonOk 6 =
        lOk.WithParams parseOk jsonOk 6) ∧
    ((lOk.WithTemplate parseOk "b: 7").WithTemplate parseOk "b: 7" =
        lOk.WithTemplate parseOk "b: 7")) :=
  ⟨by decide,
    claim_C6_last_write_wins parseOk jsonOk 1 2 5 3 4 6 "a: 1" "a: 2" "b: 7" lOk (by decide)⟩

/-- C7 as stated is refuted: a validation (non-concreteness) failure from
`Complete` is wrapped only as `loader cue-instance validate` and carries
no fragment name. -/
theorem claim_C7_counterexample :
    lOk.Complete addSynOk buildList validBad lOk.files =
      .error (.validate "field x is not concrete") ∧
    LoadErr.fragment (.validate "field x is not concrete") = none := by
  exact ⟨by decide, by decide⟩

/-- C7 (amended): every `Complete` failure identifies its stage by
construction; parse failures name the offending fragment key, and
build-assembly (`AddSyntax`) failures name a fragment whose `AddSyntax`
actually failed, but validation (non-concreteness) failures carry only the
stage, not a fragment name. -/
theorem claim_C7_error_stages {F I : Type} (addSyn : F → Option String)
    (buildI : List F → I) (validate : I → Option String) (ord : List (String × F))
    (l : Loader F) (e : LoadErr)
    (hWf : ∀ e0, l.err = some e0 → ∃ k, e0 = LoadErr.parse k)
    (h : l.Complete addSyn buildI validate ord = .error e) :
    (∃ k, e = .parse k ∧ e.fragment = some k) ∨
    (∃ fname msg, e = .addSyn fname msg ∧ e.fragment = some fname ∧
      ∃ f, (fname, f) ∈ ord ∧ addSyn f = some msg) ∨
    (∃ msg, e = .validate msg ∧ e.fragment = none ∧
      validate (buildI (ord.map Prod.snd)) = some msg) := by
  simp only [Loader.Complete] at h
  cases he : l.err with
  | some e0 =>
    rw [he] at h
    obtain ⟨k, hk⟩ := hWf e0 he
    cases h
    subst hk
    exact Or.inl ⟨k, rfl, rfl⟩
  | none =>
    rw [he] at h
    cases hf : firstAddErr addSyn ord with
    | some pr =>
      obtain ⟨fname, msg⟩ := pr
      rw [hf] at h
      cases h
      obtain ⟨f, hmem, hadd⟩ := firstAddErr_some addSyn ord fname msg hf
      exact Or.inr (Or.inl ⟨fname, msg, rfl, rfl, f, hmem, hadd⟩)
    | none =>
      rw [hf] at h
      cases hv : validate (buildI (ord.map Prod.snd)) with
      | some msg =>
        rw [hv] at h
        cases h
        exact Or.inr (Or.inr ⟨msg, rfl, rfl, rfl⟩)
      | none => rw [hv] at h; cases h

/-- Witness for C7 (amended): a failing `AddSyntax` on the template file
produces a stage-and-fragment-naming error. -/
theorem claim_C7_error_stages_witness :
    ((∀ e0, lTwo.err = some e0 → ∃ k, e0 = LoadErr.parse k) ∧
    lTwo.Complete (fun f => if f = "out: context" then some "conflict" else none)
      buildList validOk ordA = .error (.addSyn "-" "conflict")) ∧
    ((∃ k, (LoadErr.addSyn "-" "conflict") = .parse k ∧
        (LoadErr.addSyn "-" "conflict").fragment = some k) ∨
    (∃ fname msg, (LoadErr.addSyn "-" "conflict") = .addSyn fname msg ∧
        (LoadErr.addSyn "-" "conflict").fragment = some fname ∧
      ∃ f, (fname, f) ∈ ordA ∧
        (fun f => if f = "out: context" then some "conflict" else none) f = some msg) ∨
    (∃ msg, (LoadErr.addSyn "-" "conflict") = .validate msg ∧
        (LoadErr.addSyn "-" "conflict").fragment = none ∧
      validOk (buildList (ordA.map Prod.snd)) = some msg)) :=
  ⟨⟨fun e0 h0 => by simp [lTwo, newLoader, Loader.WithTemplate, parseOk] at h0, by decide⟩,
    claim_C7_error_stages (fun f => if f = "out: context" then some "conflict" else none)
      buildList validOk ordA lTwo (.addSyn "-" "conflict")
      (fun e0 h0 => by simp [lTwo, newLoader, Loader.WithTemplate, parseOk] at h0)
      (by decide)⟩

/-- C8: Determinism: the builder is a pure function of its inputs (two
runs of `Build` on equal inputs yield identical graphs), and the loader's
assembly in `Complete` — despite the nondeterministic map-iteration order
over its fragment collection — yields the same successful instance for any
two iteration orders of the same file map, because the engine's build of
the fragments is invariant under permutation (commutative unification). -/
theorem claim_C8_determinism {O F I : Type} (ns1 ns2 : String) (app1 app2 : Appfile O)
    (addSyn : F → Option String) (buildI : List F → I) (validate : I → Option String)
    (l : Loader F) (ord1 ord2 : List (String × F)) (i1 i2 : I)
    (hns : ns1 = ns2) (happ : app1 = app2)
    (hcomm : ∀ fs1 fs2 : List F, fs1.Perm fs2 → buildI fs1 = buildI fs2)
    (h1 : ord1.Perm l.files) (h2 : ord2.Perm l.files)
    (hc1 : l.Complete addSyn buildI validate ord1 = .ok i1)
    (hc2 : l.Complete addSyn buildI validate ord2 = .ok i2) :
    Build ns1 app1 = Build ns2 app2 ∧ i1 = i2 := by
  constructor
  · rw [hns, happ]
  · obtain ⟨_, _, _, he1⟩ := loaderComplete_ok addSyn buildI validate ord1 l i1 hc1
    obtain ⟨_, _, _, he2⟩ := loaderComplete_ok addSyn buildI validate ord2 l i2 hc2
    rw [he1, he2]
    exact hcomm _ _ (List.Perm.map Prod.snd (h1.trans h2.symm))

/-- Witness for C8: the two iteration orders of `lTwo`'s file map yield
the same built multiset instance. -/
theorem claim_C8_determinism_witness :
    (ordA.Perm lTwo.files ∧ ordB.Perm lTwo.files ∧
    lTwo.Complete addSynOk buildMultiset validMultisetOk ordA =
      .ok (buildMultiset ["context: 0", "out: context"]) ∧
    lTwo.Complete addSynOk buildMultiset validMultisetOk ordB =
      .ok (buildMultiset ["out: context", "context: 0"])) ∧
    (Build "prod" appOk = Build "prod" appOk ∧
      buildMultiset ["context: 0", "out: context"] =
        buildMultiset ["out: context", "context: 0"]) :=
  ⟨⟨List.Perm.refl ordA,
    List.Perm.swap ("context", "context: 0") ("-", "out: context") [],
    rfl, rfl⟩,
    claim_C8_determinism "prod" "prod" appOk appOk addSynOk buildMultiset
      validMultisetOk lTwo ordA ordB
      (buildMultiset ["context: 0", "out: context"])
      (buildMultiset ["out: context", "context: 0"])
      rfl rfl (fun _ _ hp => Multiset.coe_eq_coe.mpr hp)
      (List.Perm.refl ordA)
      (List.Perm.swap ("context", "context: 0") ("-", "out: context") [])
      rfl rfl⟩

/-- C10: Serialization errors are swallowed at call time: `marshal`
discards the serialization error and emits `"<key>: "` with an empty body,
`newLoader`, `WithContext` and `WithParams` still return a loader (the
parsed file is stored even on failure), and a malformed fragment surfaces
only as the latched `context`/`parameter` parse error returned later from
`Complete`. -/
theorem claim_C10_marshal_swallows {F I α : Type}
    (parse : String → String → F × Option String) (jsonM : α → Option String)
    (v : α) (addSyn : F → Option String) (buildI : List F → I)
    (validate : I → Option String) (ord : List (String × F)) (hj : jsonM v = none) :
    marshal jsonM "context" v = "context: " ∧
    marshal jsonM "parameter" v = "parameter: " ∧
    (newLoader parse jsonM v).files = [("context", (parse "context" "context: ").1)] ∧
    ((parse "context" "context: ").2 = none → (newLoader parse jsonM v).err = none) ∧
    (∀ m, (parse "context" "context: ").2 = some m →
      (newLoader parse jsonM v).err = some (.parse "context") ∧
      (newLoader parse jsonM v).Complete addSyn buildI validate ord =
        .error (.parse "context")) ∧
    (∀ l0 : Loader F, l0.err = none →
      l0.WithContext parse jsonM v =
        { files := insertKV l0.files "context" (parse "context" "context: ").1
          err := (parse "context" "context: ").2.map fun _ => LoadErr.parse "context" }) ∧
    (∀ l0 : Loader F, l0.err = none →
      l0.WithParams parse jsonM v =
        { files := insertKV l0.files "parameter" (parse "parameter" "parameter: ").1
          err := (parse "parameter" "parameter: ").2.map
            fun _ => LoadErr.parse "parameter" }) := by
  have hm1 : marshal jsonM "context" v = "context: " := by
    simp only [marshal, hj, Option.getD_none]
    decide
  have hm2 : marshal jsonM "parameter" v = "parameter: " := by
    simp only [marshal, hj, Option.getD_none]
    decide
  refine ⟨hm1, hm2, ?_, ?_, ?_, ?_, ?_⟩
  · simp [newLoader, hm1, insertKV]
  · intro hp
    simp [newLoader, hm1, hp]
  · intro m hp
    constructor
    · simp [newLoader, hm1, hp]
    · simp [Loader.Complete, newLoader, hm1, hp]
  · intro l0 h0
    simp [Loader.WithContext, h0, hm1]
  · intro l0 h0
    simp [Loader.WithParams, h0, hm2]

/-- Witness for C10: a failing serializer together with a failing parse of
the degenerate fragment. -/
theorem claim_C10_marshal_swallows_witness :
    (jsonNone 0 = none) ∧
    (marshal jsonNone "context" 0 = "context: " ∧
    marshal jsonNone "parameter" 0 = "parameter: " ∧
    (newLoader parseBad jsonNone 0).files =
      [("context", (parseBad "context" "context: ").1)] ∧
    ((parseBad "context" "context: ").2 = none →
      (newLoader parseBad jsonNone 0).err = none) ∧
    (∀ m, (parseBad "context" "context: ").2 = some m →
      (newLoader parseBad jsonNone 0).err = some (.parse "context") ∧
      (newLoader parseBad jsonNone 0).Complete addSynOk buildList validOk
        (newLoader parseBad jsonNone 0).files = .error (.parse "context")) ∧
    (∀ l0 : Loader String, l0.err = none →
      l0.WithContext parseBad jsonNone 0 =
        { files := insertKV l0.files "context" (parseBad "context" "context: ").1
          err := (parseBad "context" "context: ").2.map
            fun _ => LoadErr.parse "context" }) ∧
    (∀ l0 : Loader String, l0.err = none →
      l0.WithParams parseBad jsonNone 0 =
        { files := insertKV l0.files "parameter" (parseBad "parameter" "parameter: ").1
          err := (parseBad "parameter" "parameter: ").2.map
            fun _ => LoadErr.parse "parameter" })) :=
  ⟨rfl, claim_C10_marshal_swallows parseBad jsonNone 0 addSynOk buildList validOk
    (newLoader parseBad jsonNone 0).files rfl⟩
